import Mathlib

/-!
Shallow embedding of the Conversation Buffering & Session-Coordination Layer
of the supermarket WhatsApp agent (src/server.py, src/tools/redis_tools.py,
src/agent_langgraph_simple.py).

Conventions of the embedding:
  * The Redis client singleton is modelled by `RClient`: `off` stands for
    `get_redis_client()` returning `None` (connection could not be
    established), `conn false` for a working connection, and `conn true`
    for an established client whose calls raise `redis.exceptions.RedisError`
    (for example the server went away after the singleton connected).
  * Python exceptions that escape a function are modelled with `Except`;
    a caught exception is folded into the function's return value exactly as
    the source's `try/except` does.
  * Wall-clock time is an explicit `now : Nat` (seconds); a Redis key set
    with `ex = t` seconds at time `now` is alive at `now2` iff `now2 < now + t`.
  * `time.sleep` and `random.uniform` have no observable value; where the
    spec constrains pacing, the send loop is modelled as the ordered trace of
    its externally visible events (`SendEvent`), a pause event recording the
    bounds passed to `random.uniform`.
-/

namespace Agente

/-! ## Python string helpers (str.strip, str.lower, membership, str.isdigit) -/

/-- Python whitespace as stripped by `str.strip()` (ASCII part; the source
only ever strips ordinary text fragments). -/
def isPySpace (c : Char) : Bool :=
  c = ' ' || c = '\t' || c = '\n' || c = '\r' || c = '\x0b' || c = '\x0c'

/-- Characters of `s.strip()`. -/
def pyStripChars (cs : List Char) : List Char :=
  ((cs.dropWhile isPySpace).reverse.dropWhile isPySpace).reverse

/-- Python `s.strip()`. -/
def pyStrip (s : String) : String := String.mk (pyStripChars s.toList)

/-- Python `needle in haystack` on characters. -/
def listContainsSeq (needle : List Char) : List Char → Bool
  | [] => needle.isEmpty
  | c :: rest => needle.isPrefixOf (c :: rest) || listContainsSeq needle rest

/-- Python `"".join(filter(str.isdigit, s))` as used for phone normalization. -/
def digitsOnly (s : String) : String := String.mk (s.toList.filter Char.isDigit)

/-! ## The TTL key-value store model (redis_tools.py) -/

/-- State of the `get_redis_client()` singleton together with the failure
mode of its calls. -/
inductive RClient where
  | off
  | conn (failing : Bool)
deriving DecidableEq

/-- Keys with an absolute expiry instant (set with `ex=` seconds). -/
structure KVStore where
  expiry : String → Option Nat

/-- Redis `EXISTS key` at instant `now`. -/
def existsKey (st : KVStore) (now : Nat) (k : String) : Bool :=
  match st.expiry k with
  | some e => decide (now < e)
  | none => false

/-- Redis `SET key "1" EX seconds` at instant `now`. -/
def setKeyEx (st : KVStore) (k : String) (e : Nat) : KVStore :=
  ⟨fun k' => if k' = k then some e else st.expiry k'⟩

/-- A store with no keys. -/
def emptyKV : KVStore := ⟨fun _ => none⟩

/-! ## Session window (redis_tools.check_and_refresh_session) -/

def sessionKeyOf (telefone : String) : String :=
  "session_order:" ++ digitsOnly telefone

/-- redis_tools.py lines 171-194. `client is None` returns `True` (the inline
comment: assume the session continues so as not to break); with a working
client the key's prior existence is read and the key is then unconditionally
set with `ex = ttl_minutes * 60`. The two store calls (`client.exists`,
`client.set`) are not wrapped in `try/except`, so a `RedisError` raised by an
established client propagates to the caller (`.error ()`). -/
def check_and_refresh_session (c : RClient) (st : KVStore) (now : Nat)
    (telefone : String) (ttl_minutes : Nat) : Except Unit (Bool × KVStore) :=
  match c with
  | .off => .ok (true, st)
  | .conn true => .error ()
  | .conn false =>
    let key := sessionKeyOf telefone
    .ok (existsKey st now key, setKeyEx st key (now + ttl_minutes * 60))

/-! ## Edit window (redis_tools.set_order_edit_window / is_order_editable) -/

def editKeyOf (telefone : String) : String :=
  "edit_window:" ++ digitsOnly telefone

/-- redis_tools.py lines 197-213: `set` is wrapped in `try/except RedisError`,
so a failing call returns `False` rather than raising. -/
def set_order_edit_window (c : RClient) (st : KVStore) (now : Nat)
    (telefone : String) (minutes : Nat) : Bool × KVStore :=
  match c with
  | .off => (false, st)
  | .conn true => (false, st)
  | .conn false => (true, setKeyEx st (editKeyOf telefone) (now + minutes * 60))

/-- redis_tools.py lines 216-227: `if not client: return False`, then a bare
`client.exists` with no `try/except` — a `RedisError` from an established
client propagates. -/
def is_order_editable (c : RClient) (st : KVStore) (now : Nat)
    (telefone : String) : Except Unit Bool :=
  match c with
  | .off => .ok false
  | .conn true => .error ()
  | .conn false => .ok (existsKey st now (editKeyOf telefone))

/-! ## Message buffer (redis_tools.py push/length/pop) -/

/-- The Redis lists (`msgbuf:<tel>`) and the process-local fallback dict
`_local_buffer` (an absent key and an empty list are indistinguishable
through the code's `get(...) or []` accesses). Key TTL bookkeeping of the
buffer list is orthogonal to the drain claims and not modelled. -/
structure BufStore where
  redis : String → List String
  localBuf : String → List String

def buffer_key (telefone : String) : String := "msgbuf:" ++ telefone

def updateFn (f : String → List String) (k : String) (v : List String) :
    String → List String :=
  fun k' => if k' = k then v else f k'

def emptyBuf : BufStore := ⟨fun _ => [], fun _ => []⟩

/-- redis_tools.py lines 59-84: with no client, append to `_local_buffer`
and return `True`; with a working client, `rpush` and return `True`; a
`RedisError` from the call is caught and the function returns `False`. -/
def push_message_to_buffer (c : RClient) (st : BufStore)
    (telefone mensagem : String) : Bool × BufStore :=
  match c with
  | .off =>
    (true, { st with
      localBuf := updateFn st.localBuf telefone (st.localBuf telefone ++ [mensagem]) })
  | .conn true => (false, st)
  | .conn false =>
    (true, { st with
      redis := updateFn st.redis (buffer_key telefone)
        (st.redis (buffer_key telefone) ++ [mensagem]) })

/-- redis_tools.py lines 87-97. -/
def get_buffer_length (c : RClient) (st : BufStore) (telefone : String) : Nat :=
  match c with
  | .off => (st.localBuf telefone).length
  | .conn true => 0
  | .conn false => (st.redis (buffer_key telefone)).length

/-- redis_tools.py lines 100-121: in-memory path returns the list and pops
the key; store path runs a pipelined `lrange` + `delete` (atomic read and
clear); a `RedisError` is caught and yields `[]` with the store untouched. -/
def pop_all_messages (c : RClient) (st : BufStore) (telefone : String) :
    List String × BufStore :=
  match c with
  | .off => (st.localBuf telefone, { st with localBuf := updateFn st.localBuf telefone [] })
  | .conn true => ([], st)
  | .conn false =>
    (st.redis (buffer_key telefone),
     { st with redis := updateFn st.redis (buffer_key telefone) [] })

/-- The buffer contents the active path reads (local list when the client is
off, the Redis list otherwise). -/
def bufferContents (c : RClient) (st : BufStore) (telefone : String) : List String :=
  match c with
  | .off => st.localBuf telefone
  | _ => st.redis (buffer_key telefone)

/-- Push a sequence of fragments one by one. -/
def pushAll (c : RClient) (st : BufStore) (telefone : String)
    (frags : List String) : BufStore :=
  frags.foldl (fun s m => (push_message_to_buffer c s telefone m).2) st

/-! ## Debounce coordinator (server.buffer_loop, lines 382-398)

The watcher keeps a pair `(prev, stall)`; every 3.5 s it samples the buffer
length and runs one `watchStep`. Time is abstracted into the sequence of
sampled lengths: `quietStepsFrom st samples` is the number of samples the
loop consumes before `stall < 3` fails, or `none` when the given samples are
exhausted with the watcher still running. -/

/-- One iteration of the `while stall < 3` body:
`if curr > prev: prev, stall = curr, 0  else: stall += 1`. Note `prev` is
only advanced on growth, so the comparison point is the last sample that
reset the counter (initially the first reading), a high-water mark. -/
def watchStep : Nat × Nat → Nat → Nat × Nat
  | (prev, stall), curr => if prev < curr then (curr, 0) else (prev, stall + 1)

/-- The watcher state after consuming a list of samples. -/
def watchRunFrom (st : Nat × Nat) (samples : List Nat) : Nat × Nat :=
  samples.foldl watchStep st

/-- Number of samples consumed until the loop guard `stall < 3` fails;
`none` when the sample list runs out first. -/
def quietStepsFrom : Nat × Nat → List Nat → Option Nat
  | (_, stall), [] => if 3 ≤ stall then some 0 else none
  | (prev, stall), curr :: rest =>
    if 3 ≤ stall then some 0
    else (quietStepsFrom (watchStep (prev, stall) curr) rest).map (· + 1)

/-- The stall rule C1 states literally: the counter resets when the sample
is greater than the previous sample (the comparison point always advances
to the latest sample). Stated for comparison with `watchStep`. -/
def watchStepClaim : Nat × Nat → Nat → Nat × Nat
  | (prev, stall), curr => if prev < curr then (curr, 0) else (curr, stall + 1)

/-- `quietStepsFrom` under the claim's stall rule. -/
def quietStepsClaim : Nat × Nat → List Nat → Option Nat
  | (_, stall), [] => if 3 ≤ stall then some 0 else none
  | (prev, stall), curr :: rest =>
    if 3 ≤ stall then some 0
    else (quietStepsClaim (watchStepClaim (prev, stall) curr) rest).map (· + 1)

/-- server.py line 395: `" ".join([m for m in msgs if m.strip()])` — the
fragments with a non-whitespace character, in arrival order, joined with
single spaces (the kept fragments are not themselves stripped). -/
def joinedTurn (msgs : List String) : String :=
  String.intercalate " " (msgs.filter fun m => pyStrip m ≠ "")

/-- A join of all drained fragments, as C1's wording has it (no filtering). -/
def claimJoinedTurn (msgs : List String) : String :=
  String.intercalate " " msgs

/-- server.py line 396: `if final: process_async(n, final)` — the dispatched
turn text, `none` when nothing is dispatched. -/
def dispatchText (msgs : List String) : Option String :=
  let final := joinedTurn msgs
  if final = "" then none else some final

/-- The whole watcher run: quiet detection over the sampled lengths, then
drain (`msgs` being what `pop_all_messages` returned) and conditional
dispatch. `none` while no quiet period was detected within the samples. -/
def buffer_loop (init : Nat) (samples : List Nat) (msgs : List String) :
    Option String :=
  match quietStepsFrom (init, 0) samples with
  | some _ => dispatchText msgs
  | none => none

/-! ## Watcher uniqueness (server.webhook lines 436-439, buffer_loop line 398)

`buffer_sessions` is a process-local dict. The webhook handler is an `async
def` running on the single event loop and has no `await` between
`buffer_sessions.get(num)` and `buffer_sessions[num] = True`, so
check-mark-spawn is one atomic step with respect to every other request
handler; the watcher thread's only write is the `finally:
buffer_sessions.pop(...)` immediately before it terminates. The transition
system below has exactly these atomic steps for one conversation id. -/

structure WatcherSt where
  marker : Bool
  active : Nat
deriving DecidableEq

inductive WatcherStep : WatcherSt → WatcherSt → Prop
  /-- A webhook call whose push succeeded and whose marker check saw no
  marker: sets the marker, then spawns the watcher thread. -/
  | arm (s : WatcherSt) (h : s.marker = false) : WatcherStep s ⟨true, s.active + 1⟩
  /-- A webhook call that saw the marker set: pushes only, spawns nothing. -/
  | seen (s : WatcherSt) (h : s.marker = true) : WatcherStep s s
  /-- A watcher finishing normally: the `finally` clears the marker and the
  thread exits. -/
  | drainExit (s : WatcherSt) (h : 0 < s.active) : WatcherStep s ⟨false, s.active - 1⟩
  /-- A watcher aborting on an error: `except: pass` then the same
  `finally` clears the marker and the thread exits. -/
  | abortExit (s : WatcherSt) (h : 0 < s.active) : WatcherStep s ⟨false, s.active - 1⟩

/-- States reachable from the idle state (no marker, no watcher). -/
def WatcherReachable (s : WatcherSt) : Prop :=
  Relation.ReflTransGen WatcherStep ⟨false, 0⟩ s

/-! ## Edit-window opening decision (agent_langgraph_simple.pedidos_tool,
lines 50-61)

`json.loads(json_body)` and the `dict.get` accesses are modelled by handing
the tool the parse outcome: `none` when loading raises (the surrounding
`except: pass` swallows it), otherwise the object's entries. Only the
values the tool inspects matter, so a JSON value is `PyVal`. -/

inductive PyVal where
  | vnone
  | vstr (s : String)
deriving DecidableEq

/-- Python truthiness of the values `data.get` can hand the tool. -/
def truthy : PyVal → Bool
  | .vnone => false
  | .vstr s => s ≠ ""

/-- Python `a or b`. -/
def pyOr (a b : PyVal) : PyVal := if truthy a then a else b

/-- Python `data.get(k)` (a missing key is `None`). -/
def dictGet (d : List (String × PyVal)) (k : String) : PyVal :=
  match d.lookup k with
  | some v => v
  | none => .vnone

/-- agent_langgraph_simple.py line 54:
`"sucesso" in resultado.lower() or "✅" in resultado`. -/
def detectSuccess (resultado : String) : Bool :=
  listContainsSeq "sucesso".toList (resultado.toList.map Char.toLower) ||
    listContainsSeq "✅".toList resultado.toList

/-- Whether `pedidos_tool` calls `set_order_edit_window` for the collaborator
response `resultado` and the parse outcome `body` of its `json_body`
argument: marker detected, body parsed, and
`data.get("telefone") or data.get("cliente_telefone")` truthy. -/
def pedidos_tool_opens (resultado : String)
    (body : Option (List (String × PyVal))) : Bool :=
  if detectSuccess resultado then
    match body with
    | none => false
    | some data =>
      truthy (pyOr (dictGet data "telefone") (dictGet data "cliente_telefone"))
  else false

/-! ## Outbound sender (server.send_whatsapp_message, lines 292-326) -/

/-- Python `mensagem.split("|||")` specialised to the three-pipe separator
(left-to-right, non-overlapping). -/
def splitTriplePipe : List Char → List Char → List (List Char)
  | '|' :: '|' :: '|' :: rest, acc => acc.reverse :: splitTriplePipe rest []
  | c :: rest, acc => splitTriplePipe rest (c :: acc)
  | [], acc => [acc.reverse]

/-- Python `"|||" in mensagem`. -/
def containsTriplePipe : List Char → Bool
  | '|' :: '|' :: '|' :: _ => true
  | _ :: rest => containsTriplePipe rest
  | [] => false

/-- server.py lines 309-312: with the separator present,
`[m.strip() for m in mensagem.split("|||") if m.strip()]`; otherwise the
single original message. -/
def segmentsFor (mensagem : String) : List String :=
  if containsTriplePipe mensagem.toList then
    ((splitTriplePipe mensagem.toList []).map
        (fun cs => String.mk (pyStripChars cs))).filter (fun m => m ≠ "")
  else [mensagem]

/-- The externally visible events of the send loop, in program order: a
`pause` records the bounds handed to `random.uniform`, a `post` one
`requests.post` of a text segment. -/
inductive SendEvent where
  | pause (lo hi : ℚ)
  | post (text : String)
deriving DecidableEq

/-- server.py lines 314-323: `for i, msg in enumerate(msgs)`, sleeping
`random.uniform(1.0, 2.5)` before every segment but the first, then posting
the segment. The loop is sequential: each `requests.post` returns before the
next iteration starts, so the trace order is the delivery order. -/
def send_whatsapp_message_trace (mensagem : String) : List SendEvent :=
  (((segmentsFor mensagem).enum).map fun p =>
    if p.1 = 0 then [SendEvent.post p.2]
    else [SendEvent.pause 1 (5 / 2), SendEvent.post p.2]).flatten

/-- The send loop with a fallible gateway: `fails i = true` means the
`requests.post` of segment `i` raises. The single `try` around the whole
loop means the first raise abandons the loop and the function returns
`False`; the returned list is the segments whose post calls completed, in
order. -/
def sendUntilFailure (fails : Nat → Bool) : Nat → List String → Bool × List String
  | _, [] => (true, [])
  | i, m :: rest =>
    if fails i then (false, [])
    else
      let r := sendUntilFailure fails (i + 1) rest
      (r.1, m :: r.2)

/-- `send_whatsapp_message` under the gateway failure oracle `fails`:
(returned success flag, delivered segments). -/
def send_whatsapp_with_failures (fails : Nat → Bool) (mensagem : String) :
    Bool × List String :=
  sendUntilFailure fails 0 (segmentsFor mensagem)

/-! ## Supporting lemmas -/

theorem existsKey_setKeyEx_self (st : KVStore) (k : String) (e t : Nat) :
    existsKey (setKeyEx st k e) t k = decide (t < e) := by
  simp [existsKey, setKeyEx]

theorem bufferContents_after_push (c : RClient) (hc : c ≠ .conn true)
    (st : BufStore) (telefone m : String) :
    bufferContents c (push_message_to_buffer c st telefone m).2 telefone =
      bufferContents c st telefone ++ [m] := by
  match c with
  | .off => simp [bufferContents, push_message_to_buffer, updateFn]
  | .conn false => simp [bufferContents, push_message_to_buffer, updateFn]
  | .conn true => exact absurd rfl hc

theorem bufferContents_pushAll (c : RClient) (hc : c ≠ .conn true)
    (telefone : String) (frags : List String) :
    ∀ st : BufStore, bufferContents c (pushAll c st telefone frags) telefone =
      bufferContents c st telefone ++ frags := by
  induction frags with
  | nil => intro st; simp [pushAll]
  | cons f fs ih =>
    intro st
    have h1 := bufferContents_after_push c hc st telefone f
    calc bufferContents c (pushAll c st telefone (f :: fs)) telefone
        = bufferContents c (pushAll c (push_message_to_buffer c st telefone f).2 telefone fs) telefone := rfl
      _ = bufferContents c (push_message_to_buffer c st telefone f).2 telefone ++ fs := ih _
      _ = bufferContents c st telefone ++ (f :: fs) := by rw [h1]; simp

theorem pop_all_messages_fst (c : RClient) (hc : c ≠ .conn true)
    (st : BufStore) (telefone : String) :
    (pop_all_messages c st telefone).1 = bufferContents c st telefone := by
  match c with
  | .off => rfl
  | .conn false => rfl
  | .conn true => exact absurd rfl hc

theorem pop_all_messages_clears (c : RClient) (hc : c ≠ .conn true)
    (st : BufStore) (telefone : String) :
    bufferContents c (pop_all_messages c st telefone).2 telefone = [] := by
  match c with
  | .off => simp [bufferContents, pop_all_messages, updateFn]
  | .conn false => simp [bufferContents, pop_all_messages, updateFn]
  | .conn true => exact absurd rfl hc

/-! ## Claim theorems -/

/-- C3 (amended): the Message Buffer push reports success when the store
client could not be connected — the fragment goes to the process-local list
— and when the store call succeeds; but when an established client's store
call raises a RedisError, push reports failure to its caller (the webhook's
degraded path then processes the message immediately). -/
theorem push_message_degraded_modes (st : BufStore) (telefone mensagem : String) :
    push_message_to_buffer .off st telefone mensagem =
      (true, { st with
        localBuf := updateFn st.localBuf telefone (st.localBuf telefone ++ [mensagem]) })
    ∧ (push_message_to_buffer (.conn false) st telefone mensagem).1 = true
    ∧ push_message_to_buffer (.conn true) st telefone mensagem = (false, st) :=
  ⟨rfl, rfl, rfl⟩

/-- C3 counterexample: with an established client whose `rpush` raises (a
store-failure mode), push reports failure, contradicting the claim that no
store-failure mode makes push report failure. -/
theorem push_message_failure_cex :
    (push_message_to_buffer (.conn true) emptyBuf "5511999990000" "leite").1 = false :=
  rfl

/-- C4: drain is idempotent in the in-memory and store-backed paths — the
first `pop_all_messages` returns the buffered fragments (what was pushed, in
push order) and the second returns the empty sequence. -/
theorem pop_all_messages_drain_idem (c : RClient) (st : BufStore)
    (telefone : String) (h : c ≠ .conn true) :
    (pop_all_messages c st telefone).1 = bufferContents c st telefone
    ∧ (pop_all_messages c (pop_all_messages c st telefone).2 telefone).1 = []
    ∧ ∀ frags, (pop_all_messages c (pushAll c st telefone frags) telefone).1 =
        bufferContents c st telefone ++ frags := by
  refine ⟨pop_all_messages_fst c h st telefone, ?_, ?_⟩
  · rw [pop_all_messages_fst c h _ telefone, pop_all_messages_clears c h st telefone]
  · intro frags
    rw [pop_all_messages_fst c h _ telefone, bufferContents_pushAll c h telefone frags st]

/-- C4 witness: in the in-memory path, pushing two fragments and draining
twice returns them once, in push order, and then the empty sequence. -/
theorem pop_all_messages_drain_idem_witness :
    (pop_all_messages .off (pushAll .off emptyBuf "5511999990000" ["leite", "pão"]) "5511999990000").1
      = ["leite", "pão"]
    ∧ (pop_all_messages .off
        (pop_all_messages .off (pushAll .off emptyBuf "5511999990000" ["leite", "pão"]) "5511999990000").2
        "5511999990000").1 = [] := by
  have h := pop_all_messages_drain_idem .off
    (pushAll .off emptyBuf "5511999990000" ["leite", "pão"]) "5511999990000" (by decide)
  exact ⟨h.1.trans (by decide), h.2.1⟩

/-- C5: with a working store, the Session Window check returns whether the
session key existed before the call and unconditionally resets the key with
the given TTL; any re-check before the TTL elapses returns true, and a check
once the TTL has fully elapsed returns false again. -/
theorem session_check_and_refresh_spec (st : KVStore) (now : Nat)
    (telefone : String) (ttl_minutes : Nat) :
    check_and_refresh_session (.conn false) st now telefone ttl_minutes =
        .ok (existsKey st now (sessionKeyOf telefone),
             setKeyEx st (sessionKeyOf telefone) (now + ttl_minutes * 60))
    ∧ (∀ now2, now2 < now + ttl_minutes * 60 →
        ∃ st2, check_and_refresh_session (.conn false)
            (setKeyEx st (sessionKeyOf telefone) (now + ttl_minutes * 60))
            now2 telefone ttl_minutes = .ok (true, st2))
    ∧ (∀ now3, now + ttl_minutes * 60 ≤ now3 →
        ∃ st3, check_and_refresh_session (.conn false)
            (setKeyEx st (sessionKeyOf telefone) (now + ttl_minutes * 60))
            now3 telefone ttl_minutes = .ok (false, st3)) := by
  refine ⟨rfl, ?_, ?_⟩
  · intro now2 h2
    refine ⟨setKeyEx (setKeyEx st (sessionKeyOf telefone) (now + ttl_minutes * 60))
      (sessionKeyOf telefone) (now2 + ttl_minutes * 60), ?_⟩
    show Except.ok (existsKey _ now2 (sessionKeyOf telefone), _) = _
    rw [existsKey_setKeyEx_self, decide_eq_true h2]
  · intro now3 h3
    refine ⟨setKeyEx (setKeyEx st (sessionKeyOf telefone) (now + ttl_minutes * 60))
      (sessionKeyOf telefone) (now3 + ttl_minutes * 60), ?_⟩
    show Except.ok (existsKey _ now3 (sessionKeyOf telefone), _) = _
    rw [existsKey_setKeyEx_self, decide_eq_false (by omega)]

/-- C6 (the code at the failing input): with an established client whose
calls raise, `check_and_refresh_session` propagates the error instead of
reporting true; with no client connection it does report true, as both the
claim and the function's own comment require everywhere. -/
theorem session_midcall_error_propagates :
    check_and_refresh_session (.conn true) emptyKV 0 "5511999990000" 40 = .error ()
    ∧ check_and_refresh_session .off emptyKV 0 "5511999990000" 40 = .ok (true, emptyKV) :=
  ⟨rfl, rfl⟩

/-- C7 (amended): the Edit Window existence check returns false when no
store connection could be established, and otherwise reports the key's
existence; a RedisError raised by an established client during the existence
check propagates — but under neither failure mode is an edit permission
granted. -/
theorem is_order_editable_failclosed (st : KVStore) (now : Nat) (telefone : String) :
    is_order_editable .off st now telefone = .ok false
    ∧ is_order_editable (.conn false) st now telefone =
        .ok (existsKey st now (editKeyOf telefone))
    ∧ is_order_editable (.conn true) st now telefone = .error ()
    ∧ is_order_editable .off st now telefone ≠ .ok true
    ∧ is_order_editable (.conn true) st now telefone ≠ .ok true := by
  refine ⟨rfl, rfl, rfl, ?_, ?_⟩
  · intro h
    exact Bool.false_ne_true (Except.ok.inj h)
  · intro h
    exact Except.noConfusion h

/-- C7 counterexample: with an established client whose call raises (a
store-unavailability mode), `is_order_editable` does not return false — it
propagates the error — contradicting the claim that it returns false
whenever the store is unavailable. -/
theorem is_order_editable_midcall_cex :
    is_order_editable (.conn true) emptyKV 0 "5511999990000" = .error ()
    ∧ is_order_editable (.conn true) emptyKV 0 "5511999990000" ≠ .ok false :=
  ⟨rfl, fun h => Except.noConfusion h⟩

/-- C8 (amended): `pedidos_tool` opens the edit window exactly when the
collaborator's response text contains a success marker — the substring
"sucesso" case-insensitively or the glyph — AND the submitted JSON body
parses to an object whose "telefone" or "cliente_telefone" entry is truthy;
in particular a response without a marker never opens the window. -/
theorem pedidos_tool_open_iff (resultado : String)
    (body : Option (List (String × PyVal))) :
    (pedidos_tool_opens resultado body = true ↔
      detectSuccess resultado = true ∧ ∃ data, body = some data ∧
        truthy (pyOr (dictGet data "telefone") (dictGet data "cliente_telefone")) = true)
    ∧ (detectSuccess resultado = false → pedidos_tool_opens resultado body = false) := by
  constructor
  · unfold pedidos_tool_opens
    by_cases h : detectSuccess resultado
    · rw [if_pos h]
      match body with
      | none => simp [h]
      | some data => simp [h]
    · simp [h]
  · intro h
    unfold pedidos_tool_opens
    simp [h]

/-- C8 counterexample: a collaborator response carrying both success markers
while the submitted body parses to an object with no phone entry — detection
succeeds yet the edit window is not opened. -/
theorem pedidos_tool_marker_no_phone_cex :
    detectSuccess "✅ Pedido enviado com sucesso!" = true
    ∧ pedidos_tool_opens "✅ Pedido enviado com sucesso!" (some []) = false := by
  constructor
  · decide
  · decide

theorem send_trace_enumFrom (l : List String) : ∀ k : Nat, k ≠ 0 →
    ((List.enumFrom k l).map fun p =>
      if p.1 = 0 then [SendEvent.post p.2]
      else [SendEvent.pause 1 (5 / 2), SendEvent.post p.2]).flatten =
      l.flatMap fun m => [SendEvent.pause 1 (5 / 2), SendEvent.post m] := by
  induction l with
  | nil => intro k _; rfl
  | cons m rest ih =>
    intro k hk
    show ((List.map _ ((k, m) :: List.enumFrom (k + 1) rest))).flatten = _
    simp only [List.map_cons, List.flatten_cons, List.flatMap_cons, if_neg hk]
    rw [ih (k + 1) (Nat.succ_ne_zero k)]

/-- C9: a reply containing the delimiter is split into ordered, non-empty
segments, each sent as its own outbound post, with a pause drawn uniformly
from the interval 1.0 to 2.5 seconds before every segment but the first; a
reply without the delimiter is sent as a single message. The trace is the
loop's sequential program order: the post of segment i returns before the
pause and post of segment i+1 start. -/
theorem send_whatsapp_segments_trace (mensagem : String) :
    (containsTriplePipe mensagem.toList = false →
      send_whatsapp_message_trace mensagem = [SendEvent.post mensagem])
    ∧ (containsTriplePipe mensagem.toList = true →
        ∀ m ∈ segmentsFor mensagem, m ≠ "")
    ∧ send_whatsapp_message_trace mensagem =
        (match segmentsFor mensagem with
         | [] => []
         | s :: rest => SendEvent.post s ::
             (rest.flatMap fun m => [SendEvent.pause 1 (5 / 2), SendEvent.post m])) := by
  refine ⟨?_, ?_, ?_⟩
  · intro h
    unfold send_whatsapp_message_trace segmentsFor
    rw [h]
    rfl
  · intro h m hm
    unfold segmentsFor at hm
    rw [if_pos h] at hm
    simpa using (List.mem_filter.mp hm).2
  · cases hseg : segmentsFor mensagem with
    | nil => unfold send_whatsapp_message_trace; rw [hseg]; rfl
    | cons s rest =>
      unfold send_whatsapp_message_trace
      rw [hseg]
      show ((List.map _ ((0, s) :: List.enumFrom 1 rest))).flatten = _
      simp only [List.map_cons, List.flatten_cons, if_pos rfl]
      rw [send_trace_enumFrom rest 1 one_ne_zero]
      rfl

/-- C10 helper: the single try around the whole send loop means the first
failing post abandons the loop — the segments before the failing index were
each posted once, nothing at or after it is posted, and the function reports
failure. -/
theorem sendUntilFailure_spec (fails : Nat → Bool) :
    ∀ (l : List String) (i k : Nat), k < l.length →
      (∀ j, j < k → fails (i + j) = false) → fails (i + k) = true →
      sendUntilFailure fails i l = (false, l.take k) := by
  intro l
  induction l with
  | nil => intro i k hk _ _; exact absurd hk (by simp)
  | cons m rest ih =>
    intro i k hk hbefore hfail
    match k with
    | 0 =>
      have h0 : fails i = true := by simpa using hfail
      unfold sendUntilFailure
      rw [if_pos h0]
      rfl
    | Nat.succ k' =>
      have h0 : fails i = false := by simpa using hbefore 0 (Nat.succ_pos k')
      have hrec := ih (i + 1) k' (by simpa using hk)
        (fun j hj => by
          have hb := hbefore (j + 1) (by omega)
          rwa [show i + (j + 1) = i + 1 + j by omega] at hb)
        (by rwa [show i + (k' + 1) = i + 1 + k' by omega] at hfail)
      unfold sendUntilFailure
      rw [if_neg (by simp [h0]), hrec]
      rfl

/-- C10: if posting some segment of a multi-segment reply raises, the sender
stops at that segment: exactly the earlier segments were sent, once each and
in order, none at or after the failing one is sent, and the function returns
failure — a mid-sequence gateway failure leaves the reply partially
delivered. -/
theorem send_whatsapp_failure_stops (fails : Nat → Bool) (mensagem : String)
    (k : Nat) (hk : k < (segmentsFor mensagem).length)
    (hbefore : ∀ j, j < k → fails j = false) (hfail : fails k = true) :
    send_whatsapp_with_failures fails mensagem =
      (false, (segmentsFor mensagem).take k) := by
  unfold send_whatsapp_with_failures
  exact sendUntilFailure_spec fails (segmentsFor mensagem) 0 k hk
    (fun j hj => by simpa using hbefore j hj) (by simpa using hfail)

/-- C10 witness: the gateway failing on the second post of a three-segment
reply leaves exactly the first segment delivered and the sender reporting
failure. -/
theorem send_whatsapp_failure_stops_witness :
    send_whatsapp_with_failures (fun j => decide (j = 1)) "leite|||pão|||arroz" =
      (false, ["leite"]) := by
  have h := send_whatsapp_failure_stops (fun j => decide (j = 1)) "leite|||pão|||arroz"
    1 (by decide) (by decide) (by decide)
  exact h.trans (by decide)

theorem watchRunFrom_nil (st : Nat × Nat) : watchRunFrom st [] = st := rfl

theorem watchRunFrom_cons (st : Nat × Nat) (c : Nat) (l : List Nat) :
    watchRunFrom st (c :: l) = watchRunFrom (watchStep st c) l := rfl

theorem watchStep_eq (prev stall curr : Nat) :
    watchStep (prev, stall) curr =
      if prev < curr then (curr, 0) else (prev, stall + 1) := rfl

theorem quietStepsFrom_nil (prev stall : Nat) :
    quietStepsFrom (prev, stall) [] = if 3 ≤ stall then some 0 else none := rfl

theorem quietStepsFrom_cons (prev stall c : Nat) (rest : List Nat) :
    quietStepsFrom (prev, stall) (c :: rest) =
      if 3 ≤ stall then some 0
      else (quietStepsFrom (watchStep (prev, stall) c) rest).map (· + 1) := rfl

/-- C1 helper: the watcher loop exits after exactly `k` samples iff the
stall counter first reaches the threshold 3 at the `k`-th sample. -/
theorem quietStepsFrom_iff (samples : List Nat) :
    ∀ (prev stall : Nat), stall ≤ 3 → ∀ k : Nat,
      (quietStepsFrom (prev, stall) samples = some k ↔
        k ≤ samples.length ∧ (watchRunFrom (prev, stall) (samples.take k)).2 = 3 ∧
          ∀ j, j < k → (watchRunFrom (prev, stall) (samples.take j)).2 < 3) := by
  induction samples with
  | nil =>
    intro prev stall h3 k
    simp only [List.take_nil, watchRunFrom_nil, List.length_nil]
    by_cases h : 3 ≤ stall
    · rw [quietStepsFrom_nil, if_pos h]
      have hst : stall = 3 := le_antisymm h3 h
      constructor
      · intro hq
        have hk0 : 0 = k := Option.some.inj hq
        subst hk0
        exact ⟨Nat.le_refl 0, hst, fun j hj => absurd hj (by omega)⟩
      · rintro ⟨hk, _, _⟩
        have hk0 : k = 0 := Nat.le_zero.mp hk
        subst hk0
        rfl
    · rw [quietStepsFrom_nil, if_neg h]
      constructor
      · intro hq; exact absurd hq (by simp)
      · rintro ⟨hk, h2, _⟩
        have hk0 : k = 0 := Nat.le_zero.mp hk
        subst hk0
        exact absurd h2 (fun he => h (le_of_eq he.symm))
  | cons c rest ih =>
    intro prev stall h3 k
    by_cases h : 3 ≤ stall
    · rw [quietStepsFrom_cons, if_pos h]
      have hst : stall = 3 := le_antisymm h3 h
      constructor
      · intro hq
        have hk0 : 0 = k := Option.some.inj hq
        subst hk0
        exact ⟨Nat.zero_le _, hst, fun j hj => absurd hj (by omega)⟩
      · rintro ⟨hk, hrun, hbelow⟩
        rcases Nat.eq_zero_or_pos k with rfl | hpos
        · rfl
        · have := hbelow 0 hpos
          rw [List.take_zero, watchRunFrom_nil] at this
          omega
    · have hlt3 : stall < 3 := Nat.lt_of_not_le h
      rw [quietStepsFrom_cons, if_neg h]
      rcases hw : watchStep (prev, stall) c with ⟨p2, s2⟩
      have hs2 : s2 ≤ 3 := by
        rw [watchStep_eq] at hw
        by_cases hc : prev < c
        · rw [if_pos hc] at hw
          cases hw
          omega
        · rw [if_neg hc] at hw
          cases hw
          omega
      constructor
      · intro hq
        obtain ⟨k2, hk2, hkk⟩ : ∃ k2, quietStepsFrom (p2, s2) rest = some k2 ∧ k2 + 1 = k := by
          cases hqq : quietStepsFrom (p2, s2) rest with
          | none => rw [hqq] at hq; exact absurd hq (by simp)
          | some k2 => rw [hqq] at hq; exact ⟨k2, rfl, Option.some.inj hq⟩
        subst hkk
        obtain ⟨hlen, hrun, hbelow⟩ := (ih p2 s2 hs2 k2).mp hk2
        refine ⟨by simpa using Nat.succ_le_succ hlen, ?_, ?_⟩
        · rw [List.take_succ_cons, watchRunFrom_cons, hw]
          exact hrun
        · intro j hj
          match j with
          | 0 =>
            rw [List.take_zero, watchRunFrom_nil]
            exact hlt3
          | Nat.succ j2 =>
            rw [List.take_succ_cons, watchRunFrom_cons, hw]
            exact hbelow j2 (by omega)
      · rintro ⟨hlen, hrun, hbelow⟩
        cases k with
        | zero =>
          rw [List.take_zero, watchRunFrom_nil] at hrun
          omega
        | succ k2 =>
          have hfire := (ih p2 s2 hs2 k2).mpr ⟨by simpa using hlen, by
              have := hrun
              rwa [List.take_succ_cons, watchRunFrom_cons, hw] at this, by
              intro j hj
              have := hbelow (j + 1) (by omega)
              rwa [List.take_succ_cons, watchRunFrom_cons, hw] at this⟩
          rw [hfire]
          rfl

/-- C1 (amended): while watching, the stall counter resets to 0 exactly when
the sampled length exceeds the retained comparison point — the last sample
that caused a reset, initially the first reading — and increments otherwise;
the loop detects quiet exactly when the counter first reaches 3; on quiet
the buffer is drained and the dispatcher receives the drained fragments that
contain a non-whitespace character, joined in arrival order with single
spaces, if and only if that joined text is non-empty. -/
theorem buffer_loop_quiet_dispatch (init : Nat) (samples : List Nat)
    (msgs : List String) (k : Nat) :
    (quietStepsFrom (init, 0) samples = some k ↔
      k ≤ samples.length ∧ (watchRunFrom (init, 0) (samples.take k)).2 = 3 ∧
        ∀ j, j < k → (watchRunFrom (init, 0) (samples.take j)).2 < 3)
    ∧ (∀ prev stall curr, (prev < curr → watchStep (prev, stall) curr = (curr, 0))
        ∧ (¬ prev < curr → watchStep (prev, stall) curr = (prev, stall + 1)))
    ∧ (quietStepsFrom (init, 0) samples = some k →
        buffer_loop init samples msgs = dispatchText msgs)
    ∧ (quietStepsFrom (init, 0) samples = none →
        buffer_loop init samples msgs = none)
    ∧ (dispatchText msgs = some (joinedTurn msgs) ↔ joinedTurn msgs ≠ "")
    ∧ (dispatchText msgs = none ↔ joinedTurn msgs = "") := by
  refine ⟨quietStepsFrom_iff samples init 0 (by omega) k, ?_, ?_, ?_, ?_, ?_⟩
  · intro prev stall curr
    constructor
    · intro hc
      rw [watchStep_eq, if_pos hc]
    · intro hc
      rw [watchStep_eq, if_neg hc]
  · intro hq
    unfold buffer_loop
    rw [hq]
  · intro hq
    unfold buffer_loop
    rw [hq]
  · unfold dispatchText
    by_cases h : joinedTurn msgs = "" <;> simp [h]
  · unfold dispatchText
    by_cases h : joinedTurn msgs = "" <;> simp [h]

/-- C1 counterexample: on the sampled lengths 1, 2, 2, 2 after an initial
reading of 2 (reachable, since a buffer key can expire and refill mid-watch)
the code detects quiet after three samples, while the claim's rule — reset
whenever the sample exceeds the previous sample — does not detect quiet
within these samples at all, because the second sample 2 exceeds the
previous sample 1 yet the code does not reset the counter; and a drained
buffer whose one fragment is a single space is not dispatched although the
claim's space-join of the fragments is the non-empty text of one space. -/
theorem buffer_loop_stall_join_cex :
    quietStepsFrom (2, 0) [1, 2, 2, 2] = some 3
    ∧ quietStepsClaim (2, 0) [1, 2, 2, 2] = none
    ∧ dispatchText [" "] = none
    ∧ claimJoinedTurn [" "] = " "
    ∧ (" " : String) ≠ "" := by
  refine ⟨by decide, by decide, by decide, by decide, by decide⟩

theorem watcher_step_inv (a b : WatcherSt) (hab : WatcherStep a b)
    (ih : (a.marker = false → a.active = 0) ∧ a.active ≤ 1) :
    (b.marker = false → b.active = 0) ∧ b.active ≤ 1 := by
  cases hab with
  | arm hm =>
    have h0 : a.active = 0 := ih.1 hm
    refine ⟨fun hfalse => Bool.noConfusion hfalse, ?_⟩
    show a.active + 1 ≤ 1
    omega
  | seen hm => exact ih
  | drainExit ha =>
    have h1 : a.active ≤ 1 := ih.2
    refine ⟨fun _ => ?_, ?_⟩
    · show a.active - 1 = 0
      omega
    · show a.active - 1 ≤ 1
      omega
  | abortExit ha =>
    have h1 : a.active ≤ 1 := ih.2
    refine ⟨fun _ => ?_, ?_⟩
    · show a.active - 1 = 0
      omega
    · show a.active - 1 ≤ 1
      omega

theorem watcher_inv (s : WatcherSt) (h : WatcherReachable s) :
    (s.marker = false → s.active = 0) ∧ s.active ≤ 1 := by
  induction h with
  | refl => exact ⟨fun _ => rfl, Nat.zero_le 1⟩
  | tail _ hstep ih => exact watcher_step_inv _ _ hstep ih

/-- C2: in every state reachable from the idle state by webhook arrivals
(atomic on the event loop: the marker check and set have no suspension point
between them) and watcher exits (which clear the marker in a `finally`, on
normal completion and on the error path alike), at most one watcher is
active for the conversation id. -/
theorem watcher_unique_invariant (s : WatcherSt) (h : WatcherReachable s) :
    s.active ≤ 1 :=
  (watcher_inv s h).2

/-- C2 witness: the state reached by one arming webhook call — marker set,
one watcher — satisfies the invariant. -/
theorem watcher_unique_invariant_witness : WatcherSt.active ⟨true, 1⟩ ≤ 1 :=
  watcher_unique_invariant ⟨true, 1⟩
    (Relation.ReflTransGen.single (WatcherStep.arm ⟨false, 0⟩ rfl))

end Agente
